import Mathlib

/-!
Verification of the ETL pipeline (pipeline1: `ETL_for_MasterTable.py`,
pipeline2: `ETL_fileconversion_toXML.py`) against its specification.

Shallow embedding conventions:
* A pandas cell is a `Val`: a numeric value, a raw string, or NaN (`na`).
* Datetimes are modelled as integers on a comparable timeline; a
  caller-supplied timestamp string is a `DTStr`, either `valid t` (the
  permissive parser `pd.to_datetime` succeeds and yields timeline point `t`)
  or `invalid s` (the parser raises on the raw string `s`).
* Exceptions are modelled with `Except Unit`: each source function that has a
  `try`/`except` wrapper is split into a `..._body` (the `try` block) and the
  catch-all wrapper that converts any error into missing markers.
* The missing marker `np.nan` is modelled as `none`.
* A float standard deviation is represented exactly by its radicand (`SqrtQ`):
  the real value is `Real.sqrt` of the stored rational.
-/

/-- A pandas cell value: numeric, raw string, or NaN. -/
inductive Val where
  | num (q : ℚ)
  | str (s : String)
  | na
deriving DecidableEq, Repr

/-- Parse a run of decimal digits as a natural number (`none` on empty input
or any non-digit). -/
def parseDigits (cs : List Char) : Option ℕ :=
  if cs.isEmpty then none
  else cs.foldlM (fun acc c => if c.isDigit then some (acc * 10 + (c.toNat - 48)) else none) 0

/-- Parse an unsigned decimal numeral, with an optional fractional part. -/
def parseUnsigned (cs : List Char) : Option ℚ :=
  match cs.splitOn '.' with
  | [w] => (parseDigits w).map (fun n => (n : ℚ))
  | [w, f] => do
      let wn ← parseDigits w
      let fn ← parseDigits f
      pure ((wn : ℚ) + (fn : ℚ) / ((10 : ℚ) ^ f.length))
  | _ => none

/-- Numeric interpretation of a string, as performed by `pd.to_numeric` and
Python's `float()`: optional sign, digits, optional fractional part. -/
def parseNumStr (s : String) : Option ℚ :=
  match s.data with
  | '-' :: rest => (parseUnsigned rest).map (fun q => -q)
  | cs => parseUnsigned cs

/-- `pd.to_numeric(col, errors='coerce')` on one cell: numbers pass through,
strings are parsed (unparseable ones become NaN = `none`), NaN stays NaN. -/
def toNumeric : Val → Option ℚ
  | .num q => some q
  | .str s => parseNumStr s
  | .na => none

/-- Python `float()` applied to a cell: numbers (including NaN) succeed,
strings parse or raise `ValueError` (modelled as `Except.error`). -/
def floatCoerce : Val → Except Unit (Option ℚ)
  | .num q => .ok (some q)
  | .na => .ok none
  | .str s =>
    match parseNumStr s with
    | some q => .ok (some q)
    | none => .error ()

/-- A timestamp string as consumed by `pd.to_datetime`: either the permissive
parser succeeds, yielding a point `t` on the comparable timeline, or it raises
on the raw string `s`. -/
inductive DTStr where
  | valid (t : ℤ)
  | invalid (s : String)
deriving DecidableEq, Repr

/-- `pd.to_datetime` on a timestamp string; failure raises. -/
def DTStr.parseE : DTStr → Except Unit ℤ
  | .valid t => .ok t
  | .invalid _ => .error ()

/-- Whether the raw timestamp string is the empty string (the `== ''` check in
`create_master_table`; a parseable timestamp is never empty). -/
def DTStr.isEmptyStr : DTStr → Bool
  | .valid _ => false
  | .invalid s => s = ""

/-- Fractional decimal digits of `q` (expected in `[0,1)`), with fuel;
the exact rendering of a terminating decimal. -/
def decDigits : ℕ → ℚ → String
  | 0, _ => ""
  | fuel + 1, q =>
    if q = 0 then ""
    else toString ⌊q * 10⌋ ++ decDigits fuel (q * 10 - (⌊q * 10⌋ : ℚ))

/-- Modelled: Python `str()` of a float, exact on terminating decimals
(e.g. `showQ (1/2) = "0.5"`), as used by the f-string in the valve mapper. -/
def showQ (q : ℚ) : String :=
  (if q < 0 then "-" else "") ++ toString ⌊|q|⌋ ++ "." ++
  (if decDigits 40 (|q| - (⌊|q|⌋ : ℚ)) = "" then "0"
   else decDigits 40 (|q| - (⌊|q|⌋ : ℚ)))

/-- `convert_valve_position_to_text` (pipeline1, lines 35-45): NaN → "Unknown",
1 → "Open", 0 → "Close", anything else → "Partial (<value>)". -/
def convert_valve_position_to_text (v : Option ℚ) : String :=
  match v with
  | none => "Unknown"
  | some q =>
    if q = 1 then "Open"
    else if q = 0 then "Close"
    else "Partial (" ++ showQ q ++ ")"

/-- Containment of one string in another, stated on the underlying character
lists. -/
def containsStr (needle hay : String) : Prop :=
  ∃ p q : List Char, hay.data = p ++ needle.data ++ q

/-- One row of the DCS (control-system) table, with `Time_dt` already parsed
at load time. -/
structure DCSRow where
  time : ℤ
  valve_position : Val
  pump_speed : Val
deriving DecidableEq, Repr

/-- One row of the process-parameter (source) table, `Time` parsed at load. -/
structure SrcRow where
  time : ℤ
  p1 : Val
  p2 : Val
  p3 : Val
deriving DecidableEq, Repr

/-- The source table: its rows plus which of the `Parameter i` columns exist
(the `if param_col in time_subset.columns` check). -/
structure SrcTable where
  rows : List SrcRow
  hasP1 : Bool
  hasP2 : Bool
  hasP3 : Bool
deriving DecidableEq, Repr

/-- Arithmetic mean of a list of rationals (pandas `.mean()`). -/
def listMean (l : List ℚ) : ℚ := l.sum / (l.length : ℚ)

/-- Sample variance with divisor `n - 1` (the square of pandas `.std()`,
default `ddof = 1`). -/
def sampleVarQ (l : List ℚ) : ℚ :=
  ((l.map (fun x => (x - listMean l) ^ 2)).sum) / ((l.length : ℚ) - 1)

/-- The exact value of a nonnegative float square root, represented by its
radicand: the value denoted is `Real.sqrt sq`. -/
structure SqrtQ where
  sq : ℚ
deriving DecidableEq, Repr

/-- The real number a `SqrtQ` denotes. -/
noncomputable def SqrtQ.val (s : SqrtQ) : ℝ := Real.sqrt (s.sq : ℝ)

/-- pandas `.max()` of a column (meaningful on nonempty lists). -/
def listMaxD : List ℚ → ℚ
  | [] => 0
  | x :: xs => xs.foldl max x

/-- pandas `.min()` of a column (meaningful on nonempty lists). -/
def listMinD : List ℚ → ℚ
  | [] => 0
  | x :: xs => xs.foldl min x

/-- The interval selector shared by both aggregation functions: rows whose
timestamp `t` satisfies `start <= t <= end`, in original order. -/
def selectRange (t : α → ℤ) (rows : List α) (st en : ℤ) : List α :=
  rows.filter (fun r => st ≤ t r && t r ≤ en)

/-- The Window Aggregator (pipeline1, lines 70-76): coerce every value of the
designated column to numeric, drop failures, return the mean of the survivors
or NaN when none remain. -/
def avg_numeric (col : List Val) : Option ℚ :=
  let vals := col.filterMap toNumeric
  if vals.isEmpty then none else some (listMean vals)

/-- The `try` block of `get_dcs_data_for_timerange` (pipeline1, lines 49-79):
parse both bounds, select the window, and on a nonempty window return
(`float()` of the first valve position, mean of the coercible pump speeds). -/
def get_dcs_body (dcs : List DCSRow) (s e : DTStr) :
    Except Unit (Option ℚ × Option ℚ) :=
  match s.parseE, e.parseE with
  | .ok st, .ok en =>
    match selectRange DCSRow.time dcs st en with
    | [] => .ok (none, none)
    | first :: rest =>
      let avg := avg_numeric ((first :: rest).map DCSRow.pump_speed)
      match floatCoerce first.valve_position with
      | .ok vp => .ok (vp, avg)
      | .error u => .error u
  | .error u, _ => .error u
  | _, .error u => .error u

/-- `get_dcs_data_for_timerange`: the body with its catch-all `except` that
degrades any exception to `(NaN, NaN)` (lines 81-83). -/
def get_dcs_data_for_timerange (dcs : List DCSRow) (s e : DTStr) :
    Option ℚ × Option ℚ :=
  match get_dcs_body dcs s e with
  | .ok r => r
  | .error _ => (none, none)

/-- The four statistics computed per parameter column. -/
structure ParamStats where
  avg : Option ℚ
  sd : Option SqrtQ
  max : Option ℚ
  min : Option ℚ
deriving DecidableEq, Repr

/-- All four statistics missing. -/
def missingParamStats : ParamStats := ⟨none, none, none, none⟩

/-- The per-column computation of `calculate_parameter_stats_for_timerange`
(lines 121-133), applied after numeric coercion and dropping failures:
no valid values → all missing; otherwise mean, `.std()` when more than one
value else `0.0`, max, min. -/
def paramStats (l : List ℚ) : ParamStats :=
  if l.isEmpty then missingParamStats
  else
    { avg := some (listMean l)
      sd := some (if 1 < l.length then ⟨sampleVarQ l⟩ else ⟨0⟩)
      max := some (listMaxD l)
      min := some (listMinD l) }

/-- The statistics dictionary for the three parameter columns. -/
structure Stats3 where
  p1 : ParamStats
  p2 : ParamStats
  p3 : ParamStats
deriving DecidableEq, Repr

/-- The all-missing statistics dictionary
(`{f'para{i}_{stat}': np.nan ...}`). -/
def missingStats3 : Stats3 := ⟨missingParamStats, missingParamStats, missingParamStats⟩

/-- One parameter column's pipeline inside the loop of lines 114-139: if the
column exists, coerce the selected values and aggregate; otherwise all four
statistics are missing. -/
def paramColumnStats (has : Bool) (get : SrcRow → Val) (subset : List SrcRow) :
    ParamStats :=
  if has then paramStats ((subset.map get).filterMap toNumeric)
  else missingParamStats

/-- The `try` block of `calculate_parameter_stats_for_timerange`
(lines 88-141): parse the bounds, select the window, return all-missing on an
empty window, otherwise aggregate each parameter column independently. -/
def calc_stats_body (src : SrcTable) (s e : DTStr) : Except Unit Stats3 :=
  match s.parseE, e.parseE with
  | .ok st, .ok en =>
    let subset := selectRange SrcRow.time src.rows st en
    if subset.isEmpty then .ok missingStats3
    else
      .ok { p1 := paramColumnStats src.hasP1 SrcRow.p1 subset
            p2 := paramColumnStats src.hasP2 SrcRow.p2 subset
            p3 := paramColumnStats src.hasP3 SrcRow.p3 subset }
  | .error u, _ => .error u
  | _, .error u => .error u

/-- `calculate_parameter_stats_for_timerange`: the body with its catch-all
`except` that degrades any exception to the all-missing dictionary
(lines 143-145). -/
def calculate_parameter_stats_for_timerange (src : SrcTable) (s e : DTStr) :
    Stats3 :=
  match calc_stats_body src s e with
  | .ok r => r
  | .error _ => missingStats3

/-- A value stored in a master record: a string (Batch_ID, valve status), a
kept-verbatim timestamp string cell, a nullable float, or a nullable float
standard deviation. -/
inductive MVal where
  | str (v : String)
  | tstr (v : Option DTStr)
  | num (v : Option ℚ)
  | std (v : Option SqrtQ)
deriving DecidableEq, Repr

/-- The two cells of one event slot in a batch-event row. The outer `Option`
is column presence (`start_col in batch_row.index`); the inner `Option` is
cell nullity (`pd.isna`). -/
structure EventCols where
  startC : Option (Option DTStr)
  endC : Option (Option DTStr)
deriving DecidableEq, Repr

/-- One row of the batch-event (APRM) table. -/
structure BatchRow where
  batch_id : String
  ev1 : EventCols
  ev2 : EventCols
  ev3 : EventCols
deriving DecidableEq, Repr

/-- The event-slot-qualified key `E<n>_<suffix>`. -/
def ekey (n : ℕ) (suffix : String) : String :=
  "E" ++ toString n ++ "_" ++ suffix

/-- The four statistics entries for parameter `p` of event `n`
(lines 202-206 in the computed branch, 183-187 in the missing branch). -/
def paramEntries (n p : ℕ) (ps : ParamStats) : List (String × MVal) :=
  [(ekey n ("AvgPara" ++ toString p), .num ps.avg),
   (ekey n ("SDPara" ++ toString p), .std ps.sd),
   (ekey n ("MaxPara" ++ toString p), .num ps.max),
   (ekey n ("MinPara" ++ toString p), .num ps.min)]

/-- All twelve parameter-statistics entries for event `n`. -/
def statsEntries (n : ℕ) (st : Stats3) : List (String × MVal) :=
  paramEntries n 1 st.p1 ++ paramEntries n 2 st.p2 ++ paramEntries n 3 st.p3

/-- The missing-marker set for the derived fields of event `n`
(`create_master_table`, lines 180-187). -/
def missingEventEntries (n : ℕ) : List (String × MVal) :=
  [(ekey n "ValvePosAtStart", .num none),
   (ekey n "ValveStatusAtStart", .str "Unknown"),
   (ekey n "AvgPumpSpd", .num none)] ++ statsEntries n missingStats3

/-- The computed derived fields of event `n` (lines 190-206). -/
def computedEventEntries (dcs : List DCSRow) (src : SrcTable) (n : ℕ)
    (st en : DTStr) : List (String × MVal) :=
  let vp := get_dcs_data_for_timerange dcs st en
  [(ekey n "ValvePosAtStart", .num vp.1),
   (ekey n "ValveStatusAtStart", .str (convert_valve_position_to_text vp.1)),
   (ekey n "AvgPumpSpd", .num vp.2)] ++
  statsEntries n (calculate_parameter_stats_for_timerange src st en)

/-- One iteration of the event loop in `create_master_table` (lines 162-209):
if either event column is absent nothing is added; otherwise the original
start/end cells are stored, and either the missing-marker set (absent or
empty bound) or the computed fields follow. -/
def processEvent (dcs : List DCSRow) (src : SrcTable) (n : ℕ)
    (ec : EventCols) : List (String × MVal) :=
  match ec.startC, ec.endC with
  | some stc, some enc =>
    let base := [(ekey n "start", MVal.tstr stc), (ekey n "end", MVal.tstr enc)]
    match stc, enc with
    | some st, some en =>
      if st.isEmptyStr || en.isEmptyStr then base ++ missingEventEntries n
      else base ++ computedEventEntries dcs src n st en
    | _, _ => base ++ missingEventEntries n
  | _, _ => []

/-- The master record assembled for one batch row (lines 159-206): `Batch_ID`
followed by the three event slots' entries, as an insertion-ordered
association list (a Python dict with string keys). -/
def create_master_record (dcs : List DCSRow) (src : SrcTable) (r : BatchRow) :
    List (String × MVal) :=
  ("Batch_ID", MVal.str r.batch_id) ::
    (processEvent dcs src 1 r.ev1 ++ processEvent dcs src 2 r.ev2 ++
     processEvent dcs src 3 r.ev3)

/-- `create_master_table` (lines 147-218): one master record per batch row,
in input order. -/
def create_master_table (src : SrcTable) (aprm : List BatchRow)
    (dcs : List DCSRow) : List (List (String × MVal)) :=
  aprm.map (create_master_record dcs src)

/-- The keys of the four statistics entries for parameter `p` of event `n`. -/
def paramKeys (n p : ℕ) : List String :=
  [ekey n ("AvgPara" ++ toString p), ekey n ("SDPara" ++ toString p),
   ekey n ("MaxPara" ++ toString p), ekey n ("MinPara" ++ toString p)]

/-- The fixed key list of one event slot. -/
def eventKeys (n : ℕ) : List String :=
  [ekey n "start", ekey n "end", ekey n "ValvePosAtStart",
   ekey n "ValveStatusAtStart", ekey n "AvgPumpSpd"] ++
  paramKeys n 1 ++ paramKeys n 2 ++ paramKeys n 3

/-- The fixed key list of a complete master record. -/
def masterKeys : List String :=
  "Batch_ID" :: (eventKeys 1 ++ eventKeys 2 ++ eventKeys 3)

/-- One row of the tag/alias table consumed by the secondary converter
(pipeline2). The alias cell is nullable; non-null cells are the raw
comma-separated string. -/
structure CsvRow where
  area : String
  unitName : String
  unitDesc : String
  tag : String
  tagMap : String
  aliasCell : Option String
deriving DecidableEq, Repr

/-- One tag definition in the emitted document. -/
structure TagDef where
  name : String
  tagMap : String
  dataSourceName : String
  aliases : List String
deriving DecidableEq, Repr

/-- The data held for one area+unit group: its description and tag list. -/
structure UnitData where
  description : String
  tags : List TagDef
deriving DecidableEq, Repr

/-- The nested `area → unit → data` dictionaries, flattened to an
insertion-ordered association list keyed by the (area, unit) pair; per-group
tag lists are preserved exactly. -/
abbrev Doc := List ((String × String) × UnitData)

/-- Python `str.split(',')` on the character list: comma-separated groups,
empty groups kept (`"".split(',') == ['']`). -/
def splitComma : List Char → List (List Char)
  | [] => [[]]
  | c :: cs =>
    if c = ',' then [] :: splitComma cs
    else
      match splitComma cs with
      | [] => [[c]]
      | g :: gs => (c :: g) :: gs

/-- Python `str.strip()`: whitespace removed from both ends (the alias cells
only ever carry spaces). -/
def stripStr (s : String) : String :=
  ⟨((s.data.dropWhile (fun c => c = ' ')).reverse.dropWhile
      (fun c => c = ' ')).reverse⟩

/-- `str(row['Alias name']) if pd.notna(...) else ''`, split on commas and
stripped (`alias_raw.split(',')` then `.strip()`), empties kept. -/
def aliasPartsRaw (c : Option String) : List String :=
  (splitComma (c.getD "").data).map (fun g => stripStr ⟨g⟩)

/-- The alias list given to a newly created tag (pipeline2, line 34): split,
strip, drop empties — duplicates inside one cell are kept. -/
def newTagAliases (c : Option String) : List String :=
  (aliasPartsRaw c).filter (fun a => a ≠ "")

/-- The alias-appending loop for an existing tag (lines 29-32): each stripped
part is appended only when nonempty and not already present. -/
def addAliases (cur : List String) (parts : List String) : List String :=
  parts.foldl (fun acc a => if a ≠ "" ∧ a ∉ acc then acc ++ [a] else acc) cur

/-- Update the first tag with the given name (the `next(...)` lookup mutates
the first match). -/
def updateFirstTag (tags : List TagDef) (nm : String) (f : TagDef → TagDef) :
    List TagDef :=
  match tags with
  | [] => []
  | t :: ts => if t.name = nm then f t :: ts else t :: updateFirstTag ts nm f

/-- Insert row `r`'s tag into a group's tag list (lines 25-40): extend the
existing tag's aliases, or append a fresh tag. -/
def upsertTag (tags : List TagDef) (r : CsvRow) (dsn : String) : List TagDef :=
  if tags.any (fun t => t.name = r.tag) then
    updateFirstTag tags r.tag
      (fun t => { t with aliases := addAliases t.aliases (aliasPartsRaw r.aliasCell) })
  else
    tags ++ [⟨r.tag, r.tagMap, dsn, newTagAliases r.aliasCell⟩]

/-- Update the first group with the given key. -/
def updateFirstGroup (st : Doc) (k : String × String) (f : UnitData → UnitData) :
    Doc :=
  match st with
  | [] => []
  | e :: es => if e.1 = k then (e.1, f e.2) :: es else e :: updateFirstGroup es k f

/-- Process one row of the loop at lines 15-40: the defaultdict creates the
(area, unit) group on first touch, the description is overwritten, and the
row's tag is upserted. -/
def upsertRow (dsn : String) (st : Doc) (r : CsvRow) : Doc :=
  if st.any (fun e => e.1 = (r.area, r.unitName)) then
    updateFirstGroup st (r.area, r.unitName)
      (fun u => ⟨r.unitDesc, upsertTag u.tags r dsn⟩)
  else
    st ++ [((r.area, r.unitName), ⟨r.unitDesc, upsertTag [] r dsn⟩)]

/-- The structure-building phase of `convert_csv_to_xml` (lines 12-40); the
XML tree serializes this structure verbatim, so the document's alias lists
are exactly the `aliases` fields here. -/
def convert_csv_to_xml (dsn : String) (df : List CsvRow) : Doc :=
  df.foldl (upsertRow dsn) []

/-- The alias cells of the rows in the (area, unit) group `k` (the pandas
`groupby(['Area name', 'Unit name'])['Alias name']` series for that group). -/
def groupAliasCells (df : List CsvRow) (k : String × String) :
    List (Option String) :=
  (df.filter (fun r => r.area = k.1 && r.unitName = k.2)).map CsvRow.aliasCell

/-- The non-null values of a series (`count` counts these,
`nunique` counts their distinct values). -/
def nonNullCells (l : List (Option String)) : List String := l.filterMap id

/-- `validate_aliases` (pipeline2, lines 71-78): succeeds iff in every
(area, unit) group the number of distinct non-null alias cells equals the
number of non-null alias cells. -/
def validate_aliases (df : List CsvRow) : Bool :=
  ((df.map (fun r => (r.area, r.unitName))).dedup).all
    (fun k => (nonNullCells (groupAliasCells df k)).dedup.length =
              (nonNullCells (groupAliasCells df k)).length)

/-- The per-file branch of the `__main__` loop (lines 100-105): a document is
emitted only when validation passes; a failing file is skipped. -/
def processFile (dsn : String) (df : List CsvRow) : Option Doc :=
  if validate_aliases df then some (convert_csv_to_xml dsn df) else none

/-- Any string is contained in any extension of itself on both sides. -/
theorem containsStr_middle (a b c : String) : containsStr b (a ++ b ++ c) :=
  ⟨a.data, c.data, by simp [String.data_append]⟩

/-- C5: the Categorical Mapper is a pure total function with
label(missing) = "Unknown", label(1) = "Open", label(0) = "Close"; any other
numeric value yields a partial-position label that contains "Partial" and the
human-readable rendering of the value. -/
theorem c5_categorical_mapper (q : ℚ) (h1 : q ≠ 1) (h0 : q ≠ 0) :
    convert_valve_position_to_text none = "Unknown" ∧
    convert_valve_position_to_text (some 1) = "Open" ∧
    convert_valve_position_to_text (some 0) = "Close" ∧
    convert_valve_position_to_text (some q) = "Partial (" ++ showQ q ++ ")" ∧
    containsStr "Partial" (convert_valve_position_to_text (some q)) ∧
    containsStr (showQ q) (convert_valve_position_to_text (some q)) := by
  have hlab : convert_valve_position_to_text (some q) =
      "Partial (" ++ showQ q ++ ")" := by
    simp [convert_valve_position_to_text, h1, h0]
  refine ⟨rfl, rfl, rfl, hlab, ?_, ?_⟩
  · refine ⟨[], ' ' :: '(' :: ((showQ q).data ++ [')']), ?_⟩
    rw [hlab, String.data_append, String.data_append]
    have hd : "Partial (".data = "Partial".data ++ [' ', '('] := rfl
    simp [hd]
  · rw [hlab]
    exact containsStr_middle "Partial (" (showQ q) ")"

/-- Unfolding of one digit-extraction step on a nonzero remainder. -/
theorem decDigits_succ (fuel : ℕ) (q : ℚ) (h : q ≠ 0) :
    decDigits (fuel + 1) q =
      toString ⌊q * 10⌋ ++ decDigits fuel (q * 10 - (⌊q * 10⌋ : ℚ)) := by
  simp [decDigits, h]

/-- A zero remainder produces no further digits. -/
theorem decDigits_zero (fuel : ℕ) : decDigits fuel 0 = "" := by
  cases fuel <;> simp [decDigits]

/-- The decimal rendering of one half is "0.5". -/
theorem showQ_half : showQ (1/2 : ℚ) = "0.5" := by
  have habs : |(1/2 : ℚ)| = 1/2 := by norm_num
  have hfl : ⌊(1/2 : ℚ)⌋ = 0 := by norm_num
  have hsub : (1/2 : ℚ) - ((0 : ℤ) : ℚ) = 1/2 := by norm_num
  have hd : decDigits 40 (1/2 : ℚ) = "5" := by
    have h10 : (1/2 : ℚ) * 10 = 5 := by norm_num
    have hf5 : ⌊(5 : ℚ)⌋ = 5 := by norm_num
    have hs5 : (5 : ℚ) - ((5 : ℤ) : ℚ) = 0 := by norm_num
    have h1 : decDigits 40 (1/2 : ℚ) =
        toString ⌊(1/2 : ℚ) * 10⌋ ++
          decDigits 39 ((1/2 : ℚ) * 10 - (⌊(1/2 : ℚ) * 10⌋ : ℚ)) :=
      decDigits_succ 39 _ (by norm_num)
    rw [h1, h10, hf5, hs5, decDigits_zero]
    rfl
  unfold showQ
  rw [habs, hfl, hsub, hd]
  rw [if_neg (by norm_num : ¬ ((1/2 : ℚ) < 0))]
  rw [if_neg (by decide : ¬ (("5" : String) = ""))]
  rfl

/-- C5 witness: at the concrete intermediate position 1/2 the label is
"Partial (0.5)", containing "Partial" and the literal "0.5". -/
theorem c5_categorical_mapper_witness :
    showQ (1/2 : ℚ) = "0.5" ∧
    convert_valve_position_to_text (some (1/2 : ℚ)) = "Partial (0.5)" ∧
    containsStr "Partial" (convert_valve_position_to_text (some (1/2 : ℚ))) ∧
    containsStr "0.5" (convert_valve_position_to_text (some (1/2 : ℚ))) := by
  have h := c5_categorical_mapper (1/2) (by norm_num) (by norm_num)
  refine ⟨showQ_half, ?_, h.2.2.2.2.1, ?_⟩
  · rw [h.2.2.2.1, showQ_half]
    rfl
  · have := h.2.2.2.2.2
    rwa [showQ_half] at this

/-- The interval selector returns no rows when the window is reversed. -/
theorem selectRange_reversed {α : Type} (t : α → ℤ) (rows : List α)
    (st en : ℤ) (h : en < st) : selectRange t rows st en = [] := by
  refine List.filter_eq_nil_iff.mpr ?_
  intro a _
  simp only [Bool.and_eq_true, decide_eq_true_eq, not_and]
  intro h1 h2
  omega

/-- C7: for valid bounds with start > end, the interval selection is empty
for both time-series tables (not an error), and both callers take the normal
empty-selection path: the DCS extractor returns (missing, missing) and the
statistics aggregator returns the all-missing dictionary. -/
theorem c7_reversed_interval (dcs : List DCSRow) (src : SrcTable)
    (st en : ℤ) (h : en < st) :
    selectRange DCSRow.time dcs st en = [] ∧
    selectRange SrcRow.time src.rows st en = [] ∧
    get_dcs_data_for_timerange dcs (DTStr.valid st) (DTStr.valid en) =
      (none, none) ∧
    calculate_parameter_stats_for_timerange src (DTStr.valid st)
      (DTStr.valid en) = missingStats3 := by
  have h1 := selectRange_reversed DCSRow.time dcs st en h
  have h2 := selectRange_reversed SrcRow.time src.rows st en h
  refine ⟨h1, h2, ?_, ?_⟩
  · simp [get_dcs_data_for_timerange, get_dcs_body, DTStr.parseE, h1]
  · simp [calculate_parameter_stats_for_timerange, calc_stats_body,
      DTStr.parseE, h2]

/-- C7 witness: the reversed window [5, 3] on a one-row table selects nothing
and both aggregates degrade to missing markers. -/
theorem c7_reversed_interval_witness :
    (3 : ℤ) < 5 ∧
    (selectRange DCSRow.time [⟨4, Val.num 1, Val.num 2⟩] 5 3 = [] ∧
     selectRange SrcRow.time [⟨4, Val.num 1, Val.num 2, Val.num 3⟩] 5 3 = [] ∧
     get_dcs_data_for_timerange [⟨4, Val.num 1, Val.num 2⟩] (DTStr.valid 5)
       (DTStr.valid 3) = (none, none) ∧
     calculate_parameter_stats_for_timerange
       ⟨[⟨4, Val.num 1, Val.num 2, Val.num 3⟩], true, true, true⟩
       (DTStr.valid 5) (DTStr.valid 3) = missingStats3) :=
  ⟨by decide,
   c7_reversed_interval [⟨4, Val.num 1, Val.num 2⟩]
     ⟨[⟨4, Val.num 1, Val.num 2, Val.num 3⟩], true, true, true⟩ 5 3 (by decide)⟩

/-- C8: the Window Aggregator drops values that fail numeric coercion
(neither treating them as 0 nor raising), returns the arithmetic mean of the
survivors or missing if none remain, its result on the pump-speed column is
what `get_dcs_data_for_timerange` reports for a nonempty window, and
avg_numeric(["3","x","5"]) = 4. -/
theorem c8_window_aggregator (dcs : List DCSRow) (st en : ℤ) (first : DCSRow)
    (rest : List DCSRow) (vp : Option ℚ)
    (hsub : selectRange DCSRow.time dcs st en = first :: rest)
    (hvp : floatCoerce first.valve_position = .ok vp) :
    get_dcs_data_for_timerange dcs (DTStr.valid st) (DTStr.valid en) =
      (vp, avg_numeric ((first :: rest).map DCSRow.pump_speed)) ∧
    (∀ col : List Val,
      avg_numeric col = avg_numeric ((col.filterMap toNumeric).map Val.num)) ∧
    (∀ col : List Val, col.filterMap toNumeric = [] → avg_numeric col = none) ∧
    (∀ (col : List Val) (ks : List ℚ), col.filterMap toNumeric = ks →
      ks ≠ [] → avg_numeric col = some (ks.sum / (ks.length : ℚ))) ∧
    avg_numeric [Val.str "3", Val.str "x", Val.str "5"] = some 4 := by
  refine ⟨?_, ?_, ?_, ?_, ?_⟩
  · simp [get_dcs_data_for_timerange, get_dcs_body, DTStr.parseE, hsub, hvp]
  · intro col
    have h : (List.map Val.num (col.filterMap toNumeric)).filterMap toNumeric
        = col.filterMap toNumeric := by
      rw [List.filterMap_map]
      exact List.filterMap_some _
    simp only [avg_numeric, h]
  · intro col hc
    simp [avg_numeric, hc]
  · intro col ks hc hne
    simp [avg_numeric, hc, hne, listMean]
  · have h35 : ([Val.str "3", Val.str "x", Val.str "5"].filterMap toNumeric)
        = [(3 : ℚ), 5] := rfl
    have : avg_numeric [Val.str "3", Val.str "x", Val.str "5"]
        = some (listMean [(3 : ℚ), 5]) := by
      simp only [avg_numeric, h35]
      rfl
    rw [this]
    norm_num [listMean]

/-- C8 witness: a window holding pump speeds "3", "x", "5" averages to 4.0,
ignoring the non-numeric entry. -/
theorem c8_window_aggregator_witness :
    selectRange DCSRow.time
      [⟨0, Val.num 1, Val.str "3"⟩, ⟨1, Val.num 1, Val.str "x"⟩,
       ⟨2, Val.num 1, Val.str "5"⟩] 0 2 =
      [⟨0, Val.num 1, Val.str "3"⟩, ⟨1, Val.num 1, Val.str "x"⟩,
       ⟨2, Val.num 1, Val.str "5"⟩] ∧
    floatCoerce (Val.num 1) = .ok (some 1) ∧
    get_dcs_data_for_timerange
      [⟨0, Val.num 1, Val.str "3"⟩, ⟨1, Val.num 1, Val.str "x"⟩,
       ⟨2, Val.num 1, Val.str "5"⟩] (DTStr.valid 0) (DTStr.valid 2) =
      (some 1, avg_numeric
        (([⟨0, Val.num 1, Val.str "3"⟩, ⟨1, Val.num 1, Val.str "x"⟩,
           ⟨2, Val.num 1, Val.str "5"⟩] : List DCSRow).map DCSRow.pump_speed)) ∧
    avg_numeric [Val.str "3", Val.str "x", Val.str "5"] = some 4 := by
  have h := c8_window_aggregator
    [⟨0, Val.num 1, Val.str "3"⟩, ⟨1, Val.num 1, Val.str "x"⟩,
     ⟨2, Val.num 1, Val.str "5"⟩] 0 2
    ⟨0, Val.num 1, Val.str "3"⟩
    [⟨1, Val.num 1, Val.str "x"⟩, ⟨2, Val.num 1, Val.str "5"⟩]
    (some 1) (by decide) rfl
  exact ⟨by decide, rfl, h.1, h.2.2.2.2⟩

/-- C10: when `float()` of the first valve-position value of a nonempty
control-sample window raises, the whole `try` block is abandoned and
`get_dcs_data_for_timerange` returns (missing, missing) — a valid average
pump speed computed from the same window is discarded. -/
theorem c10_valve_error_discards_pump (dcs : List DCSRow) (st en : ℤ)
    (first : DCSRow) (rest : List DCSRow) (pavg : ℚ)
    (hsub : selectRange DCSRow.time dcs st en = first :: rest)
    (herr : floatCoerce first.valve_position = .error ())
    (_hpump : avg_numeric ((first :: rest).map DCSRow.pump_speed) = some pavg) :
    get_dcs_data_for_timerange dcs (DTStr.valid st) (DTStr.valid en) =
      (none, none) := by
  simp [get_dcs_data_for_timerange, get_dcs_body, DTStr.parseE, hsub, herr]

/-- C10 witness: one row with unparseable valve position "bad" and valid pump
speed 5 yields (missing, missing); the valid average 5 is discarded. -/
theorem c10_valve_error_discards_pump_witness :
    selectRange DCSRow.time [⟨0, Val.str "bad", Val.num 5⟩] 0 2 =
      [⟨0, Val.str "bad", Val.num 5⟩] ∧
    floatCoerce (Val.str "bad") = .error () ∧
    avg_numeric ([(⟨0, Val.str "bad", Val.num 5⟩ : DCSRow)].map
      DCSRow.pump_speed) = some 5 ∧
    get_dcs_data_for_timerange [⟨0, Val.str "bad", Val.num 5⟩]
      (DTStr.valid 0) (DTStr.valid 2) = (none, none) := by
  have hpump : avg_numeric ([(⟨0, Val.str "bad", Val.num 5⟩ : DCSRow)].map
      DCSRow.pump_speed) = some 5 := by
    have : avg_numeric ([(⟨0, Val.str "bad", Val.num 5⟩ : DCSRow)].map
        DCSRow.pump_speed) = some (listMean [(5 : ℚ)]) := rfl
    rw [this]
    norm_num [listMean]
  exact ⟨by decide, rfl, hpump,
    c10_valve_error_discards_pump [⟨0, Val.str "bad", Val.num 5⟩] 0 2
      ⟨0, Val.str "bad", Val.num 5⟩ [] 5 (by decide) rfl hpump⟩

/-- A left max-fold over a list returns its seed or a member. -/
theorem foldl_max_mem (x : ℚ) (xs : List ℚ) :
    xs.foldl max x = x ∨ xs.foldl max x ∈ xs := by
  induction xs generalizing x with
  | nil => exact Or.inl rfl
  | cons y ys ih =>
    rcases ih (max x y) with h | h
    · rcases max_choice x y with hc | hc
      · exact Or.inl (by rw [List.foldl_cons, h, hc])
      · exact Or.inr (by rw [List.foldl_cons, h, hc]; exact List.mem_cons_self y ys)
    · exact Or.inr (List.mem_cons_of_mem y h)

/-- A left max-fold bounds its seed and every member from above. -/
theorem le_foldl_max (x : ℚ) (xs : List ℚ) :
    x ≤ xs.foldl max x ∧ ∀ y ∈ xs, y ≤ xs.foldl max x := by
  induction xs generalizing x with
  | nil => exact ⟨le_refl x, by intro y hy; cases hy⟩
  | cons z zs ih =>
    have h := ih (max x z)
    refine ⟨le_trans (le_max_left x z) h.1, ?_⟩
    intro y hy
    rcases List.mem_cons.mp hy with rfl | hy
    · exact le_trans (le_max_right x y) h.1
    · exact h.2 y hy

/-- A left min-fold over a list returns its seed or a member. -/
theorem foldl_min_mem (x : ℚ) (xs : List ℚ) :
    xs.foldl min x = x ∨ xs.foldl min x ∈ xs := by
  induction xs generalizing x with
  | nil => exact Or.inl rfl
  | cons y ys ih =>
    rcases ih (min x y) with h | h
    · rcases min_choice x y with hc | hc
      · exact Or.inl (by rw [List.foldl_cons, h, hc])
      · exact Or.inr (by rw [List.foldl_cons, h, hc]; exact List.mem_cons_self y ys)
    · exact Or.inr (List.mem_cons_of_mem y h)

/-- A left min-fold bounds its seed and every member from below. -/
theorem foldl_min_le (x : ℚ) (xs : List ℚ) :
    xs.foldl min x ≤ x ∧ ∀ y ∈ xs, xs.foldl min x ≤ y := by
  induction xs generalizing x with
  | nil => exact ⟨le_refl x, by intro y hy; cases hy⟩
  | cons z zs ih =>
    have h := ih (min x z)
    refine ⟨le_trans h.1 (min_le_left x z), ?_⟩
    intro y hy
    rcases List.mem_cons.mp hy with rfl | hy
    · exact le_trans h.1 (min_le_right x y)
    · exact h.2 y hy

/-- `listMaxD` of a nonempty list is a member and an upper bound. -/
theorem listMaxD_spec (l : List ℚ) (h : l ≠ []) :
    listMaxD l ∈ l ∧ ∀ x ∈ l, x ≤ listMaxD l := by
  match l, h with
  | x :: xs, _ =>
    constructor
    · rcases foldl_max_mem x xs with h' | h'
      · rw [listMaxD, h']; exact List.mem_cons_self x xs
      · exact List.mem_cons_of_mem x (by rw [listMaxD]; exact h')
    · intro y hy
      rcases List.mem_cons.mp hy with rfl | hy
      · exact (le_foldl_max y xs).1
      · exact (le_foldl_max x xs).2 y hy

/-- `listMinD` of a nonempty list is a member and a lower bound. -/
theorem listMinD_spec (l : List ℚ) (h : l ≠ []) :
    listMinD l ∈ l ∧ ∀ x ∈ l, listMinD l ≤ x := by
  match l, h with
  | x :: xs, _ =>
    constructor
    · rcases foldl_min_mem x xs with h' | h'
      · rw [listMinD, h']; exact List.mem_cons_self x xs
      · exact List.mem_cons_of_mem x (by rw [listMinD]; exact h')
    · intro y hy
      rcases List.mem_cons.mp hy with rfl | hy
      · exact (foldl_min_le y xs).1
      · exact (foldl_min_le x xs).2 y hy

/-- The sample variance of a list with at least two elements is nonnegative. -/
theorem sampleVarQ_nonneg (l : List ℚ) (h : 2 ≤ l.length) :
    0 ≤ sampleVarQ l := by
  unfold sampleVarQ
  apply div_nonneg
  · apply List.sum_nonneg
    intro x hx
    rcases List.mem_map.mp hx with ⟨y, _, rfl⟩
    exact sq_nonneg _
  · have : (2 : ℚ) ≤ (l.length : ℚ) := by exact_mod_cast h
    linarith

/-- C3: per designated column, after numeric coercion and dropping failures:
zero valid values give four missing statistics; one valid value gives
avg = max = min = the value and sd = 0; two or more give the arithmetic mean,
the sample standard deviation with divisor n-1, and the extrema. -/
theorem c3_stats_aggregator (col : List Val) (l : List ℚ)
    (_hl : col.filterMap toNumeric = l) :
    (l = [] → paramStats l = missingParamStats) ∧
    (∀ x : ℚ, l = [x] →
      paramStats l = ⟨some x, some ⟨0⟩, some x, some x⟩ ∧
      SqrtQ.val ⟨0⟩ = 0) ∧
    (2 ≤ l.length →
      (paramStats l).avg = some (l.sum / (l.length : ℚ)) ∧
      (∃ s : SqrtQ, (paramStats l).sd = some s ∧ 0 ≤ s.val ∧
        s.val ^ 2 =
          (((l.map (fun x => (x - l.sum / (l.length : ℚ)) ^ 2)).sum /
            ((l.length : ℚ) - 1) : ℚ) : ℝ)) ∧
      (∃ m, (paramStats l).max = some m ∧ m ∈ l ∧ ∀ x ∈ l, x ≤ m) ∧
      (∃ m, (paramStats l).min = some m ∧ m ∈ l ∧ ∀ x ∈ l, m ≤ x)) := by
  refine ⟨?_, ?_, ?_⟩
  · intro h
    subst h
    rfl
  · intro x h
    subst h
    constructor
    · simp [paramStats, listMean, listMaxD, listMinD]
    · simp [SqrtQ.val]
  · intro h2
    have hne : l ≠ [] := by
      intro h
      rw [h] at h2
      simp at h2
    have hnem : ¬ l.isEmpty := by simpa [List.isEmpty_iff] using hne
    have h1lt : 1 < l.length := by omega
    have hvar : (0 : ℝ) ≤ ((sampleVarQ l : ℚ) : ℝ) := by
      exact_mod_cast sampleVarQ_nonneg l h2
    refine ⟨?_, ?_, ?_, ?_⟩
    · simp [paramStats, hnem, listMean]
    · refine ⟨⟨sampleVarQ l⟩, ?_, Real.sqrt_nonneg _, ?_⟩
      · simp [paramStats, hnem, h1lt]
      · rw [SqrtQ.val, Real.sq_sqrt hvar]
        norm_cast
        simp [sampleVarQ, listMean]
    · obtain ⟨hmem, hub⟩ := listMaxD_spec l hne
      exact ⟨listMaxD l, by simp [paramStats, hnem], hmem, hub⟩
    · obtain ⟨hmem, hlb⟩ := listMinD_spec l hne
      exact ⟨listMinD l, by simp [paramStats, hnem], hmem, hlb⟩

/-- C3 witness: one valid value 7 gives avg = max = min = 7 and sd = 0; the
three-value column [10, 20, 30] has an attained maximum bounding the list. -/
theorem c3_stats_aggregator_witness :
    paramStats [(7 : ℚ)] = ⟨some 7, some ⟨0⟩, some 7, some 7⟩ ∧
    SqrtQ.val ⟨0⟩ = 0 ∧
    (∃ m, (paramStats [(10 : ℚ), 20, 30]).max = some m ∧
      m ∈ [(10 : ℚ), 20, 30] ∧ ∀ x ∈ [(10 : ℚ), 20, 30], x ≤ m) :=
  ⟨((c3_stats_aggregator [Val.num 7] [(7 : ℚ)] rfl).2.1 7 rfl).1,
   ((c3_stats_aggregator [Val.num 7] [(7 : ℚ)] rfl).2.1 7 rfl).2,
   ((c3_stats_aggregator [Val.num 10, Val.num 20, Val.num 30]
      [(10 : ℚ), 20, 30] rfl).2.2 (by norm_num)).2.2.1⟩

/-- C6: when either bound of an event slot is a null cell or the empty string
(with both columns present), the Master Record Builder stores the original
cells and emits the full missing-marker set for every derived field of the
slot — valve position and average pump speed missing, status "Unknown", all
twelve parameter statistics missing — independently of both time-series
tables, and (being a total function) moves on to the next event. -/
theorem c6_missing_bounds (dcs : List DCSRow) (src : SrcTable) (n : ℕ)
    (ec : EventCols) (stc enc : Option DTStr)
    (hst : ec.startC = some stc) (hen : ec.endC = some enc)
    (hmiss : stc = none ∨ enc = none ∨
      (∃ s, stc = some s ∧ s.isEmptyStr) ∨
      (∃ s, enc = some s ∧ s.isEmptyStr)) :
    processEvent dcs src n ec =
      [(ekey n "start", MVal.tstr stc), (ekey n "end", MVal.tstr enc)] ++
        missingEventEntries n ∧
    missingEventEntries n =
      [(ekey n "ValvePosAtStart", MVal.num none),
       (ekey n "ValveStatusAtStart", MVal.str "Unknown"),
       (ekey n "AvgPumpSpd", MVal.num none)] ++
      (paramEntries n 1 missingParamStats ++
       paramEntries n 2 missingParamStats ++
       paramEntries n 3 missingParamStats) := by
  refine ⟨?_, rfl⟩
  obtain ⟨sc, ev⟩ := ec
  dsimp only at hst hen
  subst hst
  subst hen
  rcases hmiss with rfl | rfl | ⟨s, rfl, hemp⟩ | ⟨s, rfl, hemp⟩
  · simp [processEvent]
  · rcases stc with _ | s <;> simp [processEvent]
  · rcases enc with _ | e <;> simp [processEvent, hemp]
  · rcases stc with _ | s1 <;> simp [processEvent, hemp]

/-- C6 witness: event slot 2 with a null start and a valid end produces the
stored bounds followed by the complete missing-marker set. -/
theorem c6_missing_bounds_witness :
    processEvent [] ⟨[], true, true, true⟩ 2
      ⟨some none, some (some (DTStr.valid 3600))⟩ =
      [(ekey 2 "start", MVal.tstr none),
       (ekey 2 "end", MVal.tstr (some (DTStr.valid 3600)))] ++
        missingEventEntries 2 :=
  (c6_missing_bounds [] ⟨[], true, true, true⟩ 2
    ⟨some none, some (some (DTStr.valid 3600))⟩ none
    (some (DTStr.valid 3600)) rfl rfl (Or.inl rfl)).1

/-- The keys contributed by one event slot whose two columns are present are
the slot's fixed key list, in both the missing and the computed branch. -/
theorem processEvent_keys (dcs : List DCSRow) (src : SrcTable) (n : ℕ)
    (ec : EventCols) (stc enc : Option DTStr)
    (hst : ec.startC = some stc) (hen : ec.endC = some enc) :
    (processEvent dcs src n ec).map Prod.fst = eventKeys n := by
  obtain ⟨sc, ev⟩ := ec
  dsimp only at hst hen
  subst hst
  subst hen
  rcases stc with _ | s
  · rcases enc with _ | e <;>
      simp [processEvent, missingEventEntries, statsEntries, paramEntries,
        eventKeys, paramKeys]
  · rcases enc with _ | e
    · simp [processEvent, missingEventEntries, statsEntries, paramEntries,
        eventKeys, paramKeys]
    · simp only [processEvent]
      split <;>
        simp [computedEventEntries, missingEventEntries, statsEntries,
          paramEntries, eventKeys, paramKeys]

/-- C1 (amended): for every batch row in which each of the three event slots
has both its start and end columns present, the master record's keys are
exactly the fixed key list — Batch_ID and, per event, start, end,
ValvePosAtStart, ValveStatusAtStart, AvgPumpSpd and Avg/SD/Max/Min for
parameters 1-3 — regardless of which missing/computed branches were taken. -/
theorem c1_fixed_keys_amended (dcs : List DCSRow) (src : SrcTable)
    (r : BatchRow) (st1 en1 st2 en2 st3 en3 : Option DTStr)
    (h1s : r.ev1.startC = some st1) (h1e : r.ev1.endC = some en1)
    (h2s : r.ev2.startC = some st2) (h2e : r.ev2.endC = some en2)
    (h3s : r.ev3.startC = some st3) (h3e : r.ev3.endC = some en3) :
    (create_master_record dcs src r).map Prod.fst = masterKeys := by
  have k1 := processEvent_keys dcs src 1 r.ev1 st1 en1 h1s h1e
  have k2 := processEvent_keys dcs src 2 r.ev2 st2 en2 h2s h2e
  have k3 := processEvent_keys dcs src 3 r.ev3 st3 en3 h3s h3e
  simp [create_master_record, masterKeys, k1, k2, k3]

/-- C1 counterexample: a batch row whose event-2 start/end columns are absent
yields a record that omits every event-2 key, so the key set is not the fixed
rectangular one. -/
theorem c1_fixed_keys_counterexample :
    ((create_master_record [] ⟨[], true, true, true⟩
        ⟨"B1", ⟨some none, some none⟩, ⟨none, none⟩,
         ⟨some none, some none⟩⟩).map Prod.fst ≠ masterKeys) ∧
    "E2_start" ∉ ((create_master_record [] ⟨[], true, true, true⟩
        ⟨"B1", ⟨some none, some none⟩, ⟨none, none⟩,
         ⟨some none, some none⟩⟩).map Prod.fst) ∧
    "E2_ValvePosAtStart" ∉ ((create_master_record [] ⟨[], true, true, true⟩
        ⟨"B1", ⟨some none, some none⟩, ⟨none, none⟩,
         ⟨some none, some none⟩⟩).map Prod.fst) ∧
    "E2_start" ∈ masterKeys := by decide

/-- C1 witness: a batch row with all six event columns present (event 1
computable, events 2 and 3 with null cells) carries exactly the fixed keys. -/
theorem c1_fixed_keys_amended_witness :
    (create_master_record [⟨0, Val.num 1, Val.num 2⟩]
        ⟨[⟨0, Val.num 10, Val.num 20, Val.num 30⟩], true, true, true⟩
        ⟨"B1", ⟨some (some (DTStr.valid 0)), some (some (DTStr.valid 10))⟩,
         ⟨some none, some none⟩,
         ⟨some (some (DTStr.invalid "garbage")),
          some (some (DTStr.valid 10))⟩⟩).map Prod.fst = masterKeys :=
  c1_fixed_keys_amended [⟨0, Val.num 1, Val.num 2⟩]
    ⟨[⟨0, Val.num 10, Val.num 20, Val.num 30⟩], true, true, true⟩
    ⟨"B1", ⟨some (some (DTStr.valid 0)), some (some (DTStr.valid 10))⟩,
     ⟨some none, some none⟩,
     ⟨some (some (DTStr.invalid "garbage")), some (some (DTStr.valid 10))⟩⟩
    (some (DTStr.valid 0)) (some (DTStr.valid 10)) none none
    (some (DTStr.invalid "garbage")) (some (DTStr.valid 10))
    rfl rfl rfl rfl rfl rfl

/-- C2: exceptions inside the per-event computations degrade to
missing-marker output rather than aborting: any error escaping either `try`
body is converted by its catch-all handler to the missing tuple or the
all-missing dictionary, a timestamp-parse failure in either bound produces
exactly that degradation, and the batch loop is total — it yields one master
record for every batch row of the input. -/
theorem c2_exceptions_degrade (dcs : List DCSRow) (src : SrcTable)
    (s e : DTStr) (aprm : List BatchRow) :
    (get_dcs_body dcs s e = .error () →
      get_dcs_data_for_timerange dcs s e = (none, none)) ∧
    (calc_stats_body src s e = .error () →
      calculate_parameter_stats_for_timerange src s e = missingStats3) ∧
    (s.parseE = .error () ∨ e.parseE = .error () →
      get_dcs_data_for_timerange dcs s e = (none, none) ∧
      calculate_parameter_stats_for_timerange src s e = missingStats3) ∧
    (create_master_table src aprm dcs).length = aprm.length := by
  refine ⟨?_, ?_, ?_, ?_⟩
  · intro h
    simp [get_dcs_data_for_timerange, h]
  · intro h
    simp [calculate_parameter_stats_for_timerange, h]
  · intro h
    rcases h with h | h
    · rcases s with t | bad
      · simp [DTStr.parseE] at h
      · exact ⟨by simp [get_dcs_data_for_timerange, get_dcs_body, DTStr.parseE],
          by simp [calculate_parameter_stats_for_timerange, calc_stats_body,
            DTStr.parseE]⟩
    · rcases e with t | bad
      · simp [DTStr.parseE] at h
      · rcases s with t2 | bad2 <;>
          exact ⟨by simp [get_dcs_data_for_timerange, get_dcs_body,
              DTStr.parseE],
            by simp [calculate_parameter_stats_for_timerange, calc_stats_body,
              DTStr.parseE]⟩
  · simp [create_master_table]

/-- C2 witness: an unparseable start timestamp degrades both aggregates to
missing markers and the run still yields one record for the one batch. -/
theorem c2_exceptions_degrade_witness :
    (get_dcs_data_for_timerange [⟨0, Val.num 1, Val.num 2⟩]
       (DTStr.invalid "not a date") (DTStr.valid 0) = (none, none) ∧
     calculate_parameter_stats_for_timerange ⟨[], true, true, true⟩
       (DTStr.invalid "not a date") (DTStr.valid 0) = missingStats3) ∧
    (create_master_table ⟨[], true, true, true⟩
      [⟨"B1", ⟨some (some (DTStr.invalid "not a date")),
               some (some (DTStr.valid 0))⟩,
        ⟨none, none⟩, ⟨none, none⟩⟩] [⟨0, Val.num 1, Val.num 2⟩]).length =
      ([⟨"B1", ⟨some (some (DTStr.invalid "not a date")),
                some (some (DTStr.valid 0))⟩,
         ⟨none, none⟩, ⟨none, none⟩⟩] : List BatchRow).length :=
  ⟨(c2_exceptions_degrade [⟨0, Val.num 1, Val.num 2⟩] ⟨[], true, true, true⟩
      (DTStr.invalid "not a date") (DTStr.valid 0) []).2.2.1 (Or.inl rfl),
   (c2_exceptions_degrade [⟨0, Val.num 1, Val.num 2⟩] ⟨[], true, true, true⟩
      (DTStr.invalid "not a date") (DTStr.valid 0)
      [⟨"B1", ⟨some (some (DTStr.invalid "not a date")),
               some (some (DTStr.valid 0))⟩,
        ⟨none, none⟩, ⟨none, none⟩⟩]).2.2.2⟩

/-- A list containing the same element at two positions strictly shrinks
under deduplication. -/
theorem dedup_length_lt_of_dup {α : Type} [DecidableEq α] (x : α)
    (A B C : List α) :
    (A ++ x :: (B ++ x :: C)).dedup.length <
      (A ++ x :: (B ++ x :: C)).length := by
  have hnd : ¬ (A ++ x :: (B ++ x :: C)).Nodup := by
    intro h
    rcases List.nodup_append.mp h with ⟨_, hR, _⟩
    rcases List.nodup_cons.mp hR with ⟨hx, _⟩
    exact hx (by simp)
  have hsub := List.dedup_sublist (A ++ x :: (B ++ x :: C))
  rcases lt_or_eq_of_le hsub.length_le with hlt | heq
  · exact hlt
  · exact absurd (hsub.eq_of_length heq ▸ List.nodup_dedup _) hnd

/-- C4 (amended): whenever two rows of the same area+unit group carry the
identical non-null raw alias cell, `validate_aliases` fails and the main loop
skips the file, emitting no markup document. (Equal alias names spread over
unequal comma-separated cells are not detected; see the counterexample.) -/
theorem c4_duplicate_alias_cell_rejected (dsn : String)
    (l1 l2 l3 : List CsvRow) (r1 r2 : CsvRow) (a : String)
    (harea : r2.area = r1.area) (hunit : r2.unitName = r1.unitName)
    (ha1 : r1.aliasCell = some a) (ha2 : r2.aliasCell = some a) :
    validate_aliases (l1 ++ r1 :: (l2 ++ r2 :: l3)) = false ∧
    processFile dsn (l1 ++ r1 :: (l2 ++ r2 :: l3)) = none := by
  have hfilter : (l1 ++ r1 :: (l2 ++ r2 :: l3)).filter
      (fun r => r.area = r1.area && r.unitName = r1.unitName) =
      l1.filter (fun r => r.area = r1.area && r.unitName = r1.unitName) ++
      r1 :: (l2.filter (fun r => r.area = r1.area && r.unitName = r1.unitName) ++
      r2 :: l3.filter (fun r => r.area = r1.area && r.unitName = r1.unitName)) := by
    simp only [List.filter_append, List.filter_cons, harea, hunit]
    simp
  have hg : nonNullCells (groupAliasCells (l1 ++ r1 :: (l2 ++ r2 :: l3))
      (r1.area, r1.unitName)) =
      (l1.filter (fun r => r.area = r1.area && r.unitName = r1.unitName)).filterMap
        CsvRow.aliasCell ++
      a :: ((l2.filter (fun r => r.area = r1.area && r.unitName = r1.unitName)).filterMap
        CsvRow.aliasCell ++
      a :: (l3.filter (fun r => r.area = r1.area && r.unitName = r1.unitName)).filterMap
        CsvRow.aliasCell) := by
    rw [groupAliasCells]
    simp only [hfilter]
    simp [nonNullCells, List.filterMap_map, List.filterMap_append,
      List.filterMap_cons, ha1, ha2]
  have hk : (r1.area, r1.unitName) ∈
      ((l1 ++ r1 :: (l2 ++ r2 :: l3)).map
        (fun r => (r.area, r.unitName))).dedup := by
    apply List.mem_dedup.mpr
    exact List.mem_map.mpr ⟨r1, by simp, rfl⟩
  have hval : validate_aliases (l1 ++ r1 :: (l2 ++ r2 :: l3)) = false := by
    cases hv : validate_aliases (l1 ++ r1 :: (l2 ++ r2 :: l3)) with
    | false => rfl
    | true =>
      exfalso
      unfold validate_aliases at hv
      have heq := List.all_eq_true.mp hv (r1.area, r1.unitName) hk
      rw [decide_eq_true_eq, hg] at heq
      have hlt := dedup_length_lt_of_dup a
        ((l1.filter (fun r => r.area = r1.area && r.unitName = r1.unitName)).filterMap
          CsvRow.aliasCell)
        ((l2.filter (fun r => r.area = r1.area && r.unitName = r1.unitName)).filterMap
          CsvRow.aliasCell)
        ((l3.filter (fun r => r.area = r1.area && r.unitName = r1.unitName)).filterMap
          CsvRow.aliasCell)
      omega
  exact ⟨hval, by simp [processFile, hval]⟩

/-- C4 witness: two rows of the same group whose alias cells are both exactly
"A1" are rejected and no document is produced. -/
theorem c4_duplicate_alias_cell_rejected_witness :
    validate_aliases
      [(⟨"A", "U", "d", "T1", "M1", some "A1"⟩ : CsvRow),
       ⟨"A", "U", "d", "T2", "M2", some "A1"⟩] = false ∧
    processFile "DS"
      [(⟨"A", "U", "d", "T1", "M1", some "A1"⟩ : CsvRow),
       ⟨"A", "U", "d", "T2", "M2", some "A1"⟩] = none :=
  c4_duplicate_alias_cell_rejected "DS" [] [] []
    ⟨"A", "U", "d", "T1", "M1", some "A1"⟩
    ⟨"A", "U", "d", "T2", "M2", some "A1"⟩ "A1" rfl rfl rfl rfl

/-- C4 counterexample: the alias name "A1" appears in two rows of the same
area+unit group under different tag names, yet — the raw cells "A1" and
"A1,B2" being unequal — validation passes and a markup document is emitted,
refuting the claim that alias-name non-uniqueness makes the file skipped. -/
theorem c4_counterexample :
    "A1" ∈ newTagAliases (some "A1") ∧
    "A1" ∈ newTagAliases (some "A1,B2") ∧
    ("T1" : String) ≠ "T2" ∧
    validate_aliases
      [(⟨"A", "U", "d", "T1", "M1", some "A1"⟩ : CsvRow),
       ⟨"A", "U", "d", "T2", "M2", some "A1,B2"⟩] = true ∧
    (processFile "DS"
      [(⟨"A", "U", "d", "T1", "M1", some "A1"⟩ : CsvRow),
       ⟨"A", "U", "d", "T2", "M2", some "A1,B2"⟩]).isSome = true := by
  decide

/-- The membership-checked alias-appending loop preserves freedom from
duplicates. -/
theorem addAliases_nodup (cur parts : List String) (h : cur.Nodup) :
    (addAliases cur parts).Nodup := by
  induction parts generalizing cur with
  | nil => exact h
  | cons p ps ih =>
    have hstep : addAliases cur (p :: ps) =
        addAliases (if p ≠ "" ∧ p ∉ cur then cur ++ [p] else cur) ps := rfl
    rw [hstep]
    apply ih
    split_ifs with hc
    · simp [List.nodup_append, h, hc.2]
    · exact h

/-- Updating the first name-matched tag preserves a per-tag property that `f`
preserves. -/
theorem updateFirstTag_pred (tags : List TagDef) (nm : String)
    (f : TagDef → TagDef) (P : TagDef → Prop)
    (hall : ∀ t ∈ tags, P t) (hf : ∀ t ∈ tags, P (f t)) :
    ∀ t ∈ updateFirstTag tags nm f, P t := by
  induction tags with
  | nil => simp [updateFirstTag]
  | cons t ts ih =>
    simp only [updateFirstTag]
    split_ifs with hname
    · intro u hu
      rcases List.mem_cons.mp hu with rfl | hu
      · exact hf t (by simp)
      · exact hall u (List.mem_cons_of_mem _ hu)
    · intro u hu
      rcases List.mem_cons.mp hu with rfl | hu
      · exact hall u (by simp)
      · exact ih (fun x hx => hall x (List.mem_cons_of_mem _ hx))
          (fun x hx => hf x (List.mem_cons_of_mem _ hx)) u hu

/-- Upserting one row's tag keeps every alias list duplicate-free, provided
the row's own parsed alias list is duplicate-free. -/
theorem upsertTag_nodup (tags : List TagDef) (r : CsvRow) (dsn : String)
    (hall : ∀ t ∈ tags, t.aliases.Nodup)
    (hr : (newTagAliases r.aliasCell).Nodup) :
    ∀ t ∈ upsertTag tags r dsn, t.aliases.Nodup := by
  unfold upsertTag
  split_ifs with hex
  · exact updateFirstTag_pred tags r.tag _ (fun t => t.aliases.Nodup) hall
      (fun t ht => addAliases_nodup t.aliases _ (hall t ht))
  · intro t ht
    rcases List.mem_append.mp ht with ht | ht
    · exact hall t ht
    · rw [List.mem_singleton.mp ht]
      exact hr

/-- Updating the first key-matched group preserves a per-entry property that
the update preserves. -/
theorem updateFirstGroup_pred (st : Doc) (k : String × String)
    (f : UnitData → UnitData) (P : (String × String) × UnitData → Prop)
    (hall : ∀ e ∈ st, P e) (hf : ∀ e ∈ st, P (e.1, f e.2)) :
    ∀ e ∈ updateFirstGroup st k f, P e := by
  induction st with
  | nil => simp [updateFirstGroup]
  | cons e es ih =>
    simp only [updateFirstGroup]
    split_ifs with hk
    · intro u hu
      rcases List.mem_cons.mp hu with rfl | hu
      · exact hf e (by simp)
      · exact hall u (List.mem_cons_of_mem _ hu)
    · intro u hu
      rcases List.mem_cons.mp hu with rfl | hu
      · exact hall u (by simp)
      · exact ih (fun x hx => hall x (List.mem_cons_of_mem _ hx))
          (fun x hx => hf x (List.mem_cons_of_mem _ hx)) u hu

/-- Processing one row keeps every alias list in the document duplicate-free,
provided the row's own parsed alias list is duplicate-free. -/
theorem upsertRow_nodup (dsn : String) (st : Doc) (r : CsvRow)
    (hall : ∀ e ∈ st, ∀ t ∈ e.2.tags, t.aliases.Nodup)
    (hr : (newTagAliases r.aliasCell).Nodup) :
    ∀ e ∈ upsertRow dsn st r, ∀ t ∈ e.2.tags, t.aliases.Nodup := by
  unfold upsertRow
  split_ifs with hex
  · exact updateFirstGroup_pred st (r.area, r.unitName) _
      (fun e => ∀ t ∈ e.2.tags, t.aliases.Nodup) hall
      (fun e he => upsertTag_nodup e.2.tags r dsn (hall e he) hr)
  · intro e he
    rcases List.mem_append.mp he with he | he
    · exact hall e he
    · rw [List.mem_singleton.mp he]
      exact upsertTag_nodup [] r dsn (by simp) hr

/-- The whole fold keeps every alias list duplicate-free. -/
theorem convert_fold_nodup (dsn : String) (df : List CsvRow) :
    ∀ st : Doc, (∀ e ∈ st, ∀ t ∈ e.2.tags, t.aliases.Nodup) →
    (∀ r ∈ df, (newTagAliases r.aliasCell).Nodup) →
    ∀ e ∈ df.foldl (upsertRow dsn) st, ∀ t ∈ e.2.tags, t.aliases.Nodup := by
  induction df with
  | nil =>
    intro st hall _
    simpa using hall
  | cons r rs ih =>
    intro st hall hdf
    rw [List.foldl_cons]
    exact ih _ (upsertRow_nodup dsn st r hall (hdf r (by simp)))
      (fun x hx => hdf x (List.mem_cons_of_mem _ hx))

/-- C9 (amended): provided no single row's comma-separated alias cell itself
repeats an alias name, every tag in the emitted document carries a
duplicate-free alias list — aliases repeated across rows for the same tag are
deduplicated by the membership check of the existing-tag branch. -/
theorem c9_alias_dedup_amended (dsn : String) (df : List CsvRow)
    (hdf : ∀ r ∈ df, (newTagAliases r.aliasCell).Nodup) :
    ∀ e ∈ convert_csv_to_xml dsn df, ∀ t ∈ e.2.tags, t.aliases.Nodup :=
  convert_fold_nodup dsn df [] (by simp) hdf

/-- C9 witness: two rows for the same tag with overlapping alias cells
"A1, B2" and "A1,C3" yield a document whose alias lists have no duplicates. -/
theorem c9_alias_dedup_amended_witness :
    (∀ r ∈ ([⟨"A", "U", "d", "T", "M", some "A1, B2"⟩,
             ⟨"A", "U", "d", "T", "M", some "A1,C3"⟩] : List CsvRow),
      (newTagAliases r.aliasCell).Nodup) ∧
    (∀ e ∈ convert_csv_to_xml "DS"
        [⟨"A", "U", "d", "T", "M", some "A1, B2"⟩,
         ⟨"A", "U", "d", "T", "M", some "A1,C3"⟩],
      ∀ t ∈ e.2.tags, t.aliases.Nodup) :=
  ⟨by decide,
   c9_alias_dedup_amended "DS"
     [⟨"A", "U", "d", "T", "M", some "A1, B2"⟩,
      ⟨"A", "U", "d", "T", "M", some "A1,C3"⟩] (by decide)⟩

/-- C9 counterexample: a single row whose cell "A1,A1" repeats an alias passes
validation, and the emitted document's tag carries the duplicated alias list
["A1", "A1"], refuting per-tag deduplication for within-cell repetition. -/
theorem c9_counterexample :
    validate_aliases [(⟨"A", "U", "d", "T", "M", some "A1,A1"⟩ : CsvRow)] =
      true ∧
    convert_csv_to_xml "DS" [⟨"A", "U", "d", "T", "M", some "A1,A1"⟩] =
      [(("A", "U"), ⟨"d", [⟨"T", "M", "DS", ["A1", "A1"]⟩]⟩)] ∧
    ¬ (∀ e ∈ convert_csv_to_xml "DS"
        [(⟨"A", "U", "d", "T", "M", some "A1,A1"⟩ : CsvRow)],
      ∀ t ∈ e.2.tags, t.aliases.Nodup) := by
  decide
